import Mathlib

/-!
Verification development for the HashVault repository's two HTTP route
handlers:

* `src/src/app/api/upload/route.ts` — the metadata service (`POST` create,
  `GET` list, `DELETE`) over a document database, with a per-wallet
  in-memory list cache (`fileListCache`, TTL 30 000 ms);
* the upload proxy route (`POST`) that forwards a multipart form to the
  WebHash API with a bearer key.

The handlers are shallowly embedded as pure functions.  Mutable module
state (the file collection, the `User` collection, the cache `Map`)
becomes an explicit `ServerState` threaded through each handler.
Externally-determined outcomes — whether the database connection attempt
succeeded, whether the `findOneAndUpdate` upsert yielded a record, what
the upstream `fetch` returned — are passed as parameters.  Observable
side effects needed by the properties (did the handler query the
database, did it attempt the network call, did it parse the form) are
recorded as boolean fields of the result.

JavaScript numbers are idealised as exact integers (`Int`); this is
faithful for magnitudes below 2^53, and the one place where double
rounding could matter (size formatting) carries that bound explicitly.
-/

/-! ## JavaScript `parseInt(s, 10)` -/

/-- Whitespace characters skipped by `parseInt` (the common ASCII subset of
ECMAScript *WhiteSpace* / *LineTerminator*). -/
def isJsSpace (c : Char) : Bool :=
  c = ' ' || c = '\t' || c = '\n' || c = '\r' || c.toNat = 11 || c.toNat = 12

/-- Decimal digit test. -/
def isDigitChar (c : Char) : Bool :=
  '0' ≤ c && c ≤ '9'

/-- Numeric value of a list of decimal digit characters (most significant
first). -/
def digitsVal (l : List Char) : Nat :=
  l.foldl (fun a c => 10 * a + (c.toNat - 48)) 0

/-- JavaScript `parseInt(s, 10)`: skip leading whitespace, read an optional
sign, then the longest prefix of decimal digits; `none` models `NaN`
(no digits found), otherwise the signed value of the digit prefix.
Trailing non-digit characters are ignored, exactly as in JavaScript. -/
def jsParseInt (s : String) : Option Int :=
  let cs := s.data.dropWhile isJsSpace
  let signAndRest : Int × List Char :=
    match cs with
    | '-' :: rest => (-1, rest)
    | '+' :: rest => (1, rest)
    | _ => (1, cs)
  let ds := signAndRest.2.takeWhile isDigitChar
  if ds.isEmpty then none
  else some (signAndRest.1 * (digitsVal ds : Int))

/-- JavaScript `x || 0` applied to a `parseInt` result: `NaN` becomes `0`
(and `0` stays `0`), any other value is kept.  Used by the DELETE handler
(`parseInt(file.size, 10) || 0`). -/
def jsOrZero : Option Int → Int
  | none => 0
  | some v => v

/-! ## Size formatting (GET decoration, route.ts lines 158–171) -/

/-- Two-digit zero-padded rendering of `r < 100`. -/
def pad2 (r : Nat) : String :=
  if r < 10 then "0" ++ toString r else toString r

/-- Model of `(n / 2^k).toFixed(2)` for `n : Nat`.  Division of an integer
double by a power of two is exact (for `n < 2^53`), and `toFixed(2)` picks
the integer `m` minimising `|m/100 - x|`, the larger on ties — i.e.
round-half-up of `100·n / 2^k` for nonnegative `n`. -/
def toFixed2Pow2 (n : Nat) (k : Nat) : String :=
  let m := (100 * n + 2 ^ (k - 1)) / 2 ^ k
  toString (m / 100) ++ "." ++ pad2 (m % 100)

/-- The size-formatting block of the GET handler: `formattedSize` starts as
the raw `file.size` string, and is replaced by a unit-suffixed rendering
when `parseInt(file.size, 10)` is not `NaN`. -/
def formatFileSize (size : String) : String :=
  match jsParseInt size with
  | none => size
  | some n =>
    if n < 1024 then toString n ++ " B"
    else if n < 1024 * 1024 then toFixed2Pow2 n.toNat 10 ++ " KB"
    else if n < 1024 * 1024 * 1024 then toFixed2Pow2 n.toNat 20 ++ " MB"
    else toFixed2Pow2 n.toNat 30 ++ " GB"

/-- Round-half-up division `num / den` (for positive `den`). -/
def roundHalfUp (num den : Nat) : Nat :=
  (2 * num + den) / (2 * den)

/-- Rendering of `num / den` to two decimals with round-half-up. -/
def twoDecimals (num den : Nat) : String :=
  let h := roundHalfUp (100 * num) den
  toString (h / 100) ++ "." ++ pad2 (h % 100)

/-- Spec-side formatting function, written from the specification's words:
"a human-readable size string computed by repeated division by 1024 with
two-decimal rounding and unit selection among B/KB/MB/GB (thresholds:
<1024 B, <1024² KB, <1024³ MB, else GB)". -/
def specFormattedSize (n : Int) : String :=
  if n < 1024 then toString n ++ " B"
  else if n < 1024 ^ 2 then twoDecimals n.toNat 1024 ++ " KB"
  else if n < 1024 ^ 3 then twoDecimals n.toNat (1024 ^ 2) ++ " MB"
  else twoDecimals n.toNat (1024 ^ 3) ++ " GB"

/-! ## Data model -/

/-- A document of the `FileModel` collection, as created by the metadata
POST handler.  `createdAt`/`updatedAt` are the mongoose timestamps
(milliseconds); records are never mutated after creation, and
`updatedAt` is optional only to mirror the `file.updatedAt ||
file.createdAt` fallback in the GET decoration. -/
structure FileRecord where
  fileName : String
  cid : String
  size : String
  mimeType : String
  walletAddress : String
  createdAt : Int
  updatedAt : Option Int
deriving DecidableEq, Repr

/-- A document of the `User` collection: the per-wallet storage account. -/
structure UserDoc where
  walletAddress : String
  totalStorageUsed : Int
deriving DecidableEq, Repr

/-- A transformed file entry as returned by the GET handler (the `_id`
string is omitted: it is an opaque database identifier carrying no
information the properties mention). -/
structure ListedFile where
  fileName : String
  cid : String
  size : String
  mimeType : String
  walletAddress : String
  lastUpdate : Int
  formattedSize : String
deriving DecidableEq, Repr

/-- An entry of `fileListCache`: the cached transformed list and its
capture timestamp (`Date.now()` at store time). -/
structure CacheEntry where
  data : List ListedFile
  timestamp : Int
deriving DecidableEq, Repr

/-- The module-level mutable state of `route.ts`: the two database
collections and the in-memory cache map (keys are the literal
`"files:" ++ walletAddress` strings). -/
structure ServerState where
  files : List FileRecord
  users : List UserDoc
  cache : List (String × CacheEntry)
deriving DecidableEq, Repr

/-- The cache key built by all three handlers. -/
def cacheKeyOf (walletAddress : String) : String :=
  "files:" ++ walletAddress

/-! ## Collection operations -/

/-- Lookup of the storage account of a wallet (`User.findOne` view). -/
def usersFind : List UserDoc → String → Option Int
  | [], _ => none
  | u :: rest, w => if u.walletAddress = w then some u.totalStorageUsed else usersFind rest w

/-- Model of `User.findOneAndUpdate({walletAddress}, {$inc:
{totalStorageUsed: n}, $setOnInsert: {walletAddress}}, {upsert: true,
new: true})`: increment the first matching account, or insert a fresh
account whose counter starts at the increment (a missing field is
treated as `0` by `$inc`). -/
def usersUpsertInc : List UserDoc → String → Int → List UserDoc
  | [], w, n => [⟨w, n⟩]
  | u :: rest, w, n =>
    if u.walletAddress = w then ⟨u.walletAddress, u.totalStorageUsed + n⟩ :: rest
    else u :: usersUpsertInc rest w n

/-- Model of `User.findOneAndUpdate({walletAddress}, {$inc:
{totalStorageUsed: n}})` without upsert (the DELETE path): increment the
first matching account, change nothing when no account exists. -/
def usersIncIfPresent : List UserDoc → String → Int → List UserDoc
  | [], _, _ => []
  | u :: rest, w, n =>
    if u.walletAddress = w then ⟨u.walletAddress, u.totalStorageUsed + n⟩ :: rest
    else u :: usersIncIfPresent rest w n

/-- `FileModel.findOne({cid, walletAddress})`: first record matching both. -/
def findFile : List FileRecord → String → String → Option FileRecord
  | [], _, _ => none
  | f :: rest, c, w =>
    if f.cid = c ∧ f.walletAddress = w then some f else findFile rest c w

/-- `FileModel.deleteOne({cid, walletAddress})`: remove the first record
matching both (no-op when none matches). -/
def removeFirstFile : List FileRecord → String → String → List FileRecord
  | [], _, _ => []
  | f :: rest, c, w =>
    if f.cid = c ∧ f.walletAddress = w then rest else f :: removeFirstFile rest c w

/-- Number of records matching a (cid, walletAddress) pair. -/
def countFiles : List FileRecord → String → String → Nat
  | [], _, _ => 0
  | f :: rest, c, w =>
    (if f.cid = c ∧ f.walletAddress = w then 1 else 0) + countFiles rest c w

/-- `FileModel.find({walletAddress})`: all records of a wallet, in
collection order. -/
def filesFor : List FileRecord → String → List FileRecord
  | [], _ => []
  | f :: rest, w => if f.walletAddress = w then f :: filesFor rest w else filesFor rest w

/-- Stable insertion keeping `createdAt` descending. -/
def insertByCreatedDesc (f : FileRecord) : List FileRecord → List FileRecord
  | [] => [f]
  | g :: rest =>
    if f.createdAt ≤ g.createdAt then g :: insertByCreatedDesc f rest else f :: g :: rest

/-- `.sort({createdAt: -1})`: stable sort by creation time descending. -/
def sortByCreatedDesc : List FileRecord → List FileRecord
  | [] => []
  | f :: rest => insertByCreatedDesc f (sortByCreatedDesc rest)

/-- The GET decoration of one record: spread the record, add `lastUpdate`
(`updatedAt || createdAt`) and `formattedSize`. -/
def transformFile (f : FileRecord) : ListedFile :=
  { fileName := f.fileName, cid := f.cid, size := f.size, mimeType := f.mimeType,
    walletAddress := f.walletAddress,
    lastUpdate := (f.updatedAt).getD f.createdAt,
    formattedSize := formatFileSize f.size }

/-- Map lookup on the cache (`fileListCache.get`). -/
def cacheFind : List (String × CacheEntry) → String → Option CacheEntry
  | [], _ => none
  | (k, e) :: rest, key => if k = key then some e else cacheFind rest key

/-- Map removal on the cache (`fileListCache.delete`). -/
def cacheDelete : List (String × CacheEntry) → String → List (String × CacheEntry)
  | [], _ => []
  | (k, e) :: rest, key => if k = key then cacheDelete rest key else (k, e) :: cacheDelete rest key

/-- Map insertion/overwrite on the cache (`fileListCache.set`). -/
def cacheSet (c : List (String × CacheEntry)) (key : String) (e : CacheEntry) :
    List (String × CacheEntry) :=
  cacheDelete c key ++ [(key, e)]

/-- Truthiness of `searchParams.get(...)` / an environment variable:
`null`/`undefined` or the empty string are falsy. -/
def optFalsy : Option String → Bool
  | none => true
  | some s => s = ""

/-! ## Metadata service handlers (route.ts) -/

/-- The JSON body of the metadata POST (`{ fileName, cid, size, mimeType,
walletAddress }`), all fields string-valued; an absent field is modelled
by the empty string (both are falsy under the handler's `!field`
checks). -/
structure CreateRequest where
  fileName : String
  cid : String
  size : String
  mimeType : String
  walletAddress : String
deriving DecidableEq, Repr

/-- A JSON response of the metadata service, reduced to the observables
the properties mention: the HTTP status and the `error` field. -/
structure MetaResponse where
  status : Nat
  error : Option String
deriving DecidableEq, Repr

/-- The record inserted by `FileModel.create` for a POST at time `now`
(mongoose timestamps set `createdAt = updatedAt = now`). -/
def mkFileRecord (r : CreateRequest) (now : Int) : FileRecord :=
  { fileName := r.fileName, cid := r.cid, size := r.size, mimeType := r.mimeType,
    walletAddress := r.walletAddress, createdAt := now, updatedAt := some now }

/-- The metadata POST handler (route.ts lines 43–119).  `conn` is the
outcome of `ensureDbConnection`; `upsertOk` tells whether
`User.findOneAndUpdate` yielded a record (with `upsert: true, new: true`
a `null` result is the abnormal case the handler guards with a 500).
Field checks, record creation, size parsing, account upsert and cache
invalidation happen in exactly the source order; in particular the
`FileRecord` is persisted *before* the size string is validated. -/
def metaPOST (conn : Bool) (upsertOk : Bool) (now : Int) (r : CreateRequest)
    (s : ServerState) : MetaResponse × ServerState :=
  if r.walletAddress = "" then
    ({ status := 400, error := some "Wallet address is required" }, s)
  else if r.fileName = "" ∨ r.cid = "" ∨ r.size = "" ∨ r.mimeType = "" then
    ({ status := 400, error := some "Missing required fields" }, s)
  else if conn = false then
    ({ status := 503, error := some "Failed to connect to database" }, s)
  else
    let s1 : ServerState := { s with files := s.files ++ [mkFileRecord r now] }
    match jsParseInt r.size with
    | none => ({ status := 400, error := some "Invalid file size" }, s1)
    | some n =>
      if upsertOk then
        let s2 : ServerState := { s1 with users := usersUpsertInc s1.users r.walletAddress n }
        let s3 : ServerState := { s2 with cache := cacheDelete s2.cache (cacheKeyOf r.walletAddress) }
        ({ status := 200, error := none }, s3)
      else
        ({ status := 500, error := some "Failed to update user storage" }, s1)

/-- Result of the GET handler: status, `error` field, the returned `files`
array, and whether `FileModel.find` was executed (the observable the
cache properties are about). -/
structure GetResult where
  status : Nat
  error : Option String
  files : List ListedFile
  dbQueried : Bool
deriving DecidableEq, Repr

/-- The database path of the GET handler (route.ts lines 145–188): connect,
query the wallet's records sorted by `createdAt` descending, decorate
them, store the result in the cache stamped `now`, return it. -/
def metaGETFresh (conn : Bool) (now : Int) (w : String) (s : ServerState) :
    GetResult × ServerState :=
  if conn = false then
    ({ status := 503, error := some "Failed to connect to database", files := [],
       dbQueried := false }, s)
  else
    let transformed := (sortByCreatedDesc (filesFor s.files w)).map transformFile
    ({ status := 200, error := none, files := transformed, dbQueried := true },
     { s with cache := cacheSet s.cache (cacheKeyOf w) ⟨transformed, now⟩ })

/-- The metadata GET handler (route.ts lines 121–200).  `now` is
`Date.now()`.  The cache is consulted before the database connection is
even attempted; an entry is used exactly when `now - timestamp <
30000`. -/
def metaGET (conn : Bool) (now : Int) (walletAddress : Option String)
    (s : ServerState) : GetResult × ServerState :=
  match walletAddress with
  | none =>
    ({ status := 400, error := some "Wallet address is required", files := [],
       dbQueried := false }, s)
  | some w =>
    if w = "" then
      ({ status := 400, error := some "Wallet address is required", files := [],
         dbQueried := false }, s)
    else
      match cacheFind s.cache (cacheKeyOf w) with
      | some e =>
        if now - e.timestamp < 30000 then
          ({ status := 200, error := none, files := e.data, dbQueried := false }, s)
        else metaGETFresh conn now w s
      | none => metaGETFresh conn now w s

/-- The metadata DELETE handler (route.ts lines 202–248): validate query
parameters, find the record scoped by both `cid` and `walletAddress`
(404 when absent), delete it, decrement the wallet's counter by
`parseInt(file.size, 10) || 0` (no upsert: an absent account stays
absent), and invalidate the wallet's cache entry. -/
def metaDELETE (conn : Bool) (cid walletAddress : Option String) (s : ServerState) :
    MetaResponse × ServerState :=
  if optFalsy cid || optFalsy walletAddress then
    ({ status := 400, error := some "CID and wallet address are required" }, s)
  else if conn = false then
    ({ status := 503, error := some "Failed to connect to database" }, s)
  else
    let c := cid.getD ""
    let w := walletAddress.getD ""
    match findFile s.files c w with
    | none => ({ status := 404, error := some "File not found or unauthorized" }, s)
    | some f =>
      let s1 : ServerState := { s with files := removeFirstFile s.files c w }
      let dec := jsOrZero (jsParseInt f.size)
      let s2 : ServerState := { s1 with users := usersIncIfPresent s1.users w (-dec) }
      let s3 : ServerState := { s2 with cache := cacheDelete s2.cache (cacheKeyOf w) }
      ({ status := 200, error := none }, s3)

/-! ## Upload proxy handler (the unnamed proxy route) -/

/-- The `file` entry of the multipart form, when present and truthy. -/
structure FormFile where
  name : String
  type : String
  size : Int
deriving DecidableEq, Repr

/-- The multipart form of a proxy request: just its `file` field. -/
structure ProxyForm where
  file : Option FormFile
deriving DecidableEq, Repr

/-- The upstream `fetch` response as the handler observes it: `ok`,
`status`, `statusText`, the result of `.text()` (`none` when reading the
body throws) and of `.json()` (`none` when parsing throws; the parsed
value is kept opaque as its serialised text). -/
structure UpstreamResponse where
  ok : Bool
  status : Nat
  statusText : String
  textResult : Option String
  jsonResult : Option String
deriving DecidableEq, Repr

/-- Outcome of the `fetch` call to the WebHash API: a thrown transport
error, or a response. -/
inductive FetchResult where
  | fetchError (msg : String)
  | response (u : UpstreamResponse)
deriving DecidableEq, Repr

/-- The JSON body the proxy returns: an error object (`{ error }` or
`{ error, details }`) or the upstream JSON relayed on success. -/
inductive PBody where
  | errObj (error : String) (details : Option String)
  | jsonData (data : String)
deriving DecidableEq, Repr

/-- Minimal JSON string escaping (quote and backslash), as
`JSON.stringify` performs on the strings the handler builds. -/
def escapeJsonString (s : String) : String :=
  String.mk (s.data.foldr
    (fun c acc =>
      if c = '"' then '\\' :: '"' :: acc
      else if c = '\\' then '\\' :: '\\' :: acc
      else c :: acc) [])

/-- Serialisation of a proxy body to the HTTP response text, as
`NextResponse.json` would emit it. -/
def PBody.serialize : PBody → String
  | .errObj e none =>
    "\x7b\"error\":\"" ++ escapeJsonString e ++ "\"\x7d"
  | .errObj e (some d) =>
    "\x7b\"error\":\"" ++ escapeJsonString e ++ "\",\"details\":\"" ++
      escapeJsonString d ++ "\"\x7d"
  | .jsonData d => d

/-- Result of the proxy handler: HTTP status, body, and the two
instrumented observables — whether `request.formData()` was evaluated
and whether the upstream `fetch` was attempted. -/
structure ProxyOutcome where
  status : Nat
  body : PBody
  formParsed : Bool
  fetchAttempted : Bool
deriving DecidableEq, Repr

/-- The proxy POST handler (the unnamed route, lines 6–109).  `apiKey` is
`process.env.NEXT_PUBLIC_WEBHASH_API_KEY` (falsy when unset or empty);
the key check precedes `request.formData()`, the `file` presence check
precedes the `fetch`.  On a non-ok upstream response the upstream status
is relayed with an error object whose `details` is the upstream body
text (or a fallback when `.text()` throws); on an ok response the
upstream JSON is relayed, with a 500 when it does not parse. -/
def proxyPOST (apiKey : Option String) (form : ProxyForm) (fetched : FetchResult) :
    ProxyOutcome :=
  if optFalsy apiKey then
    { status := 500, body := .errObj "WebHash API key is not configured" none,
      formParsed := false, fetchAttempted := false }
  else
    match form.file with
    | none =>
      { status := 400, body := .errObj "No file found in request" none,
        formParsed := true, fetchAttempted := false }
    | some _ =>
      match fetched with
      | .fetchError msg =>
        { status := 500, body := .errObj ("WebHash API fetch error: " ++ msg) none,
          formParsed := true, fetchAttempted := true }
      | .response u =>
        if u.ok = false then
          { status := u.status,
            body := .errObj
              ("WebHash API error: " ++ toString u.status ++ " " ++ u.statusText)
              (some (u.textResult.getD "Could not read error response")),
            formParsed := true, fetchAttempted := true }
        else
          match u.jsonResult with
          | none =>
            { status := 500, body := .errObj "Failed to parse WebHash API response" none,
              formParsed := true, fetchAttempted := true }
          | some d =>
            { status := 200, body := .jsonData d,
              formParsed := true, fetchAttempted := true }

/-! ## Helper lemmas on the collection operations -/

/-- Upserting-increment always yields an account holding the old counter
(defaulting to zero on insert) plus the increment. -/
theorem usersFind_upsertInc (us : List UserDoc) (w : String) (n : Int) :
    usersFind (usersUpsertInc us w n) w = some ((usersFind us w).getD 0 + n) := by
  induction us with
  | nil => simp [usersFind, usersUpsertInc]
  | cons u rest ih =>
    by_cases h : u.walletAddress = w
    · simp [usersFind, usersUpsertInc, h]
    · simp [usersFind, usersUpsertInc, h, ih]

/-- Increment without upsert adds to an existing account's counter. -/
theorem usersFind_incIfPresent (us : List UserDoc) (w : String) (n t : Int)
    (h : usersFind us w = some t) :
    usersFind (usersIncIfPresent us w n) w = some (t + n) := by
  induction us with
  | nil => simp [usersFind] at h
  | cons u rest ih =>
    by_cases hw : u.walletAddress = w
    · rw [usersFind, if_pos hw] at h
      cases h
      simp [usersIncIfPresent, usersFind, hw]
    · rw [usersFind, if_neg hw] at h
      simp [usersIncIfPresent, usersFind, hw, ih h]

/-- After a `delete`, a cache key is absent. -/
theorem cacheFind_cacheDelete (c : List (String × CacheEntry)) (k : String) :
    cacheFind (cacheDelete c k) k = none := by
  induction c with
  | nil => simp [cacheDelete, cacheFind]
  | cons p rest ih =>
    obtain ⟨k0, e0⟩ := p
    by_cases h : k0 = k
    · simp [cacheDelete, h, ih]
    · simp [cacheDelete, cacheFind, h, ih]

/-- Lookup distributes over append when the key misses the first part. -/
theorem cacheFind_append_of_none (l1 l2 : List (String × CacheEntry)) (k : String)
    (h : cacheFind l1 k = none) :
    cacheFind (l1 ++ l2) k = cacheFind l2 k := by
  induction l1 with
  | nil => simp
  | cons p rest ih =>
    obtain ⟨k0, e0⟩ := p
    by_cases hk : k0 = k
    · rw [cacheFind, if_pos hk] at h
      cases h
    · rw [cacheFind, if_neg hk] at h
      simp [cacheFind, hk, ih h]

/-- After a `set`, the key maps to the stored entry. -/
theorem cacheFind_cacheSet (c : List (String × CacheEntry)) (k : String) (e : CacheEntry) :
    cacheFind (cacheSet c k e) k = some e := by
  rw [cacheSet, cacheFind_append_of_none _ _ _ (cacheFind_cacheDelete c k)]
  simp [cacheFind]

/-- A (cid, wallet) pair has no matching record exactly when `findOne`
misses. -/
theorem countFiles_eq_zero (fs : List FileRecord) (c w : String) :
    countFiles fs c w = 0 ↔ findFile fs c w = none := by
  induction fs with
  | nil => simp [countFiles, findFile]
  | cons f rest ih =>
    by_cases h : f.cid = c ∧ f.walletAddress = w
    · simp [countFiles, findFile, h]
    · simp [countFiles, findFile, h, ih]

/-- `deleteOne` removes exactly one matching record when one exists. -/
theorem countFiles_removeFirst (fs : List FileRecord) (c w : String)
    (h : findFile fs c w ≠ none) :
    countFiles (removeFirstFile fs c w) c w = countFiles fs c w - 1 := by
  induction fs with
  | nil => simp [findFile] at h
  | cons f rest ih =>
    by_cases hf : f.cid = c ∧ f.walletAddress = w
    · simp [removeFirstFile, countFiles, hf]
    · rw [findFile, if_neg hf] at h
      simp [removeFirstFile, countFiles, findFile, hf, ih h]

/-- `deleteOne` shrinks the collection by one when a match exists. -/
theorem length_removeFirst (fs : List FileRecord) (c w : String)
    (h : findFile fs c w ≠ none) :
    (removeFirstFile fs c w).length + 1 = fs.length := by
  induction fs with
  | nil => simp [findFile] at h
  | cons f rest ih =>
    by_cases hf : f.cid = c ∧ f.walletAddress = w
    · simp [removeFirstFile, hf]
    · rw [findFile, if_neg hf] at h
      simp [removeFirstFile, hf]
      exact ih h

/-- An empty size string never parses (used to discharge the `!size`
falsiness check from a parse hypothesis). -/
theorem jsParseInt_empty : jsParseInt "" = none := rfl

/-- The successful-create path of the POST handler, characterised once:
with the connection up, all five fields present and the size parsing,
the created record is appended, the account is upserted, the wallet's
cache entry is removed, the status is 200 — and were the upsert to yield
no record, the status would be 500 with only the record created. -/
theorem metaPOST_success (now : Int) (r : CreateRequest) (s : ServerState) (n : Int)
    (hn : jsParseInt r.size = some n)
    (hw : r.walletAddress ≠ "") (hf : r.fileName ≠ "") (hc : r.cid ≠ "")
    (hm : r.mimeType ≠ "") :
    metaPOST true true now r s =
      ({ status := 200, error := none },
       { files := s.files ++ [mkFileRecord r now],
         users := usersUpsertInc s.users r.walletAddress n,
         cache := cacheDelete s.cache (cacheKeyOf r.walletAddress) }) ∧
    metaPOST true false now r s =
      ({ status := 500, error := some "Failed to update user storage" },
       { s with files := s.files ++ [mkFileRecord r now] }) := by
  have hs : r.size ≠ "" := by
    intro h
    rw [h, jsParseInt_empty] at hn
    cases hn
  constructor <;> simp [metaPOST, hw, hf, hc, hs, hm, hn]

/-- C1: for every metadata create (POST) whose size field parses as an
integer `n` and whose database operations succeed, the owning wallet's
`totalStorageUsed` increases by exactly `n`, the account being created
by the upsert when absent (the lookup after the call always yields an
account, holding the previous counter — zero when there was none — plus
`n`); and when the upsert yields no record the handler returns 500. -/
theorem claim_C1 (now : Int) (r : CreateRequest) (s : ServerState) (n : Int)
    (hn : jsParseInt r.size = some n)
    (hw : r.walletAddress ≠ "") (hf : r.fileName ≠ "") (hc : r.cid ≠ "")
    (hm : r.mimeType ≠ "") :
    (metaPOST true true now r s).1.status = 200 ∧
    usersFind (metaPOST true true now r s).2.users r.walletAddress =
      some ((usersFind s.users r.walletAddress).getD 0 + n) ∧
    (metaPOST true false now r s).1.status = 500 := by
  obtain ⟨h1, h2⟩ := metaPOST_success now r s n hn hw hf hc hm
  rw [h1, h2]
  exact ⟨rfl, usersFind_upsertInc s.users r.walletAddress n, rfl⟩

/-- Witness for C1 at a concrete create: wallet `w1`, size `"100"`,
starting from the empty server state. -/
theorem claim_C1_witness :
    (metaPOST true true 0 ⟨"a.txt", "cid1", "100", "text/plain", "w1"⟩ ⟨[], [], []⟩).1.status = 200 ∧
    usersFind (metaPOST true true 0 ⟨"a.txt", "cid1", "100", "text/plain", "w1"⟩ ⟨[], [], []⟩).2.users "w1" =
      some ((usersFind ([] : List UserDoc) "w1").getD 0 + 100) ∧
    (metaPOST true false 0 ⟨"a.txt", "cid1", "100", "text/plain", "w1"⟩ ⟨[], [], []⟩).1.status = 500 :=
  claim_C1 0 ⟨"a.txt", "cid1", "100", "text/plain", "w1"⟩ ⟨[], [], []⟩ 100
    (by decide) (by decide) (by decide) (by decide) (by decide)

/-- C2: a metadata create with all five fields present but an unparsable
size string returns 400 with error "Invalid file size" — and at that
point the `FileRecord` has already been persisted: the error response
leaves the created record in the collection. -/
theorem claim_C2 (upsertOk : Bool) (now : Int) (r : CreateRequest) (s : ServerState)
    (hw : r.walletAddress ≠ "") (hf : r.fileName ≠ "") (hc : r.cid ≠ "")
    (hs : r.size ≠ "") (hm : r.mimeType ≠ "")
    (hn : jsParseInt r.size = none) :
    (metaPOST true upsertOk now r s).1.status = 400 ∧
    (metaPOST true upsertOk now r s).1.error = some "Invalid file size" ∧
    (metaPOST true upsertOk now r s).2.files = s.files ++ [mkFileRecord r now] := by
  simp [metaPOST, hw, hf, hc, hs, hm, hn]

/-- Witness for C2 at a concrete create with the unparsable size
`"abc"`. -/
theorem claim_C2_witness :
    (metaPOST true true 7 ⟨"b.txt", "cid2", "abc", "text/plain", "w2"⟩ ⟨[], [], []⟩).1.status = 400 ∧
    (metaPOST true true 7 ⟨"b.txt", "cid2", "abc", "text/plain", "w2"⟩ ⟨[], [], []⟩).1.error =
      some "Invalid file size" ∧
    (metaPOST true true 7 ⟨"b.txt", "cid2", "abc", "text/plain", "w2"⟩ ⟨[], [], []⟩).2.files =
      [] ++ [mkFileRecord ⟨"b.txt", "cid2", "abc", "text/plain", "w2"⟩ 7] :=
  claim_C2 true 7 ⟨"b.txt", "cid2", "abc", "text/plain", "w2"⟩ ⟨[], [], []⟩
    (by decide) (by decide) (by decide) (by decide) (by decide) (by decide)

/-- C10: the create path accepts any size string whose leading characters
parse as an integer — negative values and trailing garbage included
(`"-100"` parses to `-100`, `"12abc"` to `12`): the record is persisted,
the counter is incremented by the parsed value, and a negative parsed
size strictly decreases the wallet's storage counter. -/
theorem claim_C10 (now : Int) (r : CreateRequest) (s : ServerState) (n : Int)
    (hn : jsParseInt r.size = some n)
    (hw : r.walletAddress ≠ "") (hf : r.fileName ≠ "") (hc : r.cid ≠ "")
    (hm : r.mimeType ≠ "") :
    jsParseInt "-100" = some (-100) ∧
    jsParseInt "12abc" = some 12 ∧
    (metaPOST true true now r s).2.files = s.files ++ [mkFileRecord r now] ∧
    usersFind (metaPOST true true now r s).2.users r.walletAddress =
      some ((usersFind s.users r.walletAddress).getD 0 + n) ∧
    (n < 0 →
      (usersFind (metaPOST true true now r s).2.users r.walletAddress).getD 0 <
        (usersFind s.users r.walletAddress).getD 0) := by
  obtain ⟨h1, _⟩ := metaPOST_success now r s n hn hw hf hc hm
  rw [h1]
  refine ⟨by decide, by decide, rfl, usersFind_upsertInc s.users r.walletAddress n, ?_⟩
  intro hneg
  rw [usersFind_upsertInc s.users r.walletAddress n]
  simp
  omega

/-- Witness for C10 at a concrete create with size `"-100"` against a
wallet already using 500 bytes: the counter drops to 400. -/
theorem claim_C10_witness :
    jsParseInt "-100" = some (-100) ∧
    jsParseInt "12abc" = some 12 ∧
    (metaPOST true true 3 ⟨"c.txt", "cid3", "-100", "text/plain", "w3"⟩
      ⟨[], [⟨"w3", 500⟩], []⟩).2.files =
      [] ++ [mkFileRecord ⟨"c.txt", "cid3", "-100", "text/plain", "w3"⟩ 3] ∧
    usersFind (metaPOST true true 3 ⟨"c.txt", "cid3", "-100", "text/plain", "w3"⟩
      ⟨[], [⟨"w3", 500⟩], []⟩).2.users "w3" =
      some ((usersFind [⟨"w3", 500⟩] "w3").getD 0 + (-100)) ∧
    ((-100 : Int) < 0 →
      (usersFind (metaPOST true true 3 ⟨"c.txt", "cid3", "-100", "text/plain", "w3"⟩
        ⟨[], [⟨"w3", 500⟩], []⟩).2.users "w3").getD 0 <
        (usersFind [⟨"w3", 500⟩] "w3").getD 0) :=
  claim_C10 3 ⟨"c.txt", "cid3", "-100", "text/plain", "w3"⟩ ⟨[], [⟨"w3", 500⟩], []⟩ (-100)
    (by decide) (by decide) (by decide) (by decide) (by decide)

/-- C3: deleting an existing record (scoped by cid and wallet, the pair
being unique per the data model) returns 200, removes the record — no
match remains and the collection shrinks by one — decrements the
wallet's `totalStorageUsed` by the record's parsed size (`parseInt ||
0`, zero when unparsable), and a second delete of the same cid and
wallet returns 404. -/
theorem claim_C3 (c w : String) (s : ServerState) (f : FileRecord)
    (hc : c ≠ "") (hw : w ≠ "")
    (hfind : findFile s.files c w = some f)
    (huniq : countFiles s.files c w = 1) :
    (metaDELETE true (some c) (some w) s).1.status = 200 ∧
    findFile (metaDELETE true (some c) (some w) s).2.files c w = none ∧
    (metaDELETE true (some c) (some w) s).2.files.length + 1 = s.files.length ∧
    (∀ t, usersFind s.users w = some t →
      usersFind (metaDELETE true (some c) (some w) s).2.users w =
        some (t - jsOrZero (jsParseInt f.size))) ∧
    (metaDELETE true (some c) (some w)
      (metaDELETE true (some c) (some w) s).2).1.status = 404 := by
  have hne : findFile s.files c w ≠ none := by rw [hfind]; exact Option.noConfusion
  have hgone : findFile (removeFirstFile s.files c w) c w = none := by
    refine (countFiles_eq_zero _ c w).mp ?_
    rw [countFiles_removeFirst s.files c w hne, huniq]
  have hdel :
      metaDELETE true (some c) (some w) s =
        ({ status := 200, error := none },
         { files := removeFirstFile s.files c w,
           users := usersIncIfPresent s.users w (-(jsOrZero (jsParseInt f.size))),
           cache := cacheDelete s.cache (cacheKeyOf w) }) := by
    simp [metaDELETE, optFalsy, hc, hw, hfind]
  rw [hdel]
  refine ⟨rfl, hgone, length_removeFirst s.files c w hne, ?_, ?_⟩
  · intro t ht
    have := usersFind_incIfPresent s.users w (-(jsOrZero (jsParseInt f.size))) t ht
    rw [this, ← sub_eq_add_neg]
  · simp [metaDELETE, optFalsy, hc, hw, hgone]

/-- Witness for C3: one record of 100 bytes for wallet `w1` with an
account holding 100; the delete empties both. -/
theorem claim_C3_witness :
    (metaDELETE true (some "c1") (some "w1")
      ⟨[⟨"a.txt", "c1", "100", "text/plain", "w1", 0, some 0⟩], [⟨"w1", 100⟩], []⟩).1.status = 200 ∧
    findFile (metaDELETE true (some "c1") (some "w1")
      ⟨[⟨"a.txt", "c1", "100", "text/plain", "w1", 0, some 0⟩], [⟨"w1", 100⟩], []⟩).2.files
      "c1" "w1" = none ∧
    (metaDELETE true (some "c1") (some "w1")
      ⟨[⟨"a.txt", "c1", "100", "text/plain", "w1", 0, some 0⟩], [⟨"w1", 100⟩], []⟩).2.files.length + 1 =
      ([⟨"a.txt", "c1", "100", "text/plain", "w1", 0, some 0⟩] : List FileRecord).length ∧
    (∀ t, usersFind [⟨"w1", 100⟩] "w1" = some t →
      usersFind (metaDELETE true (some "c1") (some "w1")
        ⟨[⟨"a.txt", "c1", "100", "text/plain", "w1", 0, some 0⟩], [⟨"w1", 100⟩], []⟩).2.users "w1" =
        some (t - jsOrZero (jsParseInt "100"))) ∧
    (metaDELETE true (some "c1") (some "w1")
      (metaDELETE true (some "c1") (some "w1")
        ⟨[⟨"a.txt", "c1", "100", "text/plain", "w1", 0, some 0⟩], [⟨"w1", 100⟩], []⟩).2).1.status = 404 :=
  claim_C3 "c1" "w1"
    ⟨[⟨"a.txt", "c1", "100", "text/plain", "w1", 0, some 0⟩], [⟨"w1", 100⟩], []⟩
    ⟨"a.txt", "c1", "100", "text/plain", "w1", 0, some 0⟩
    (by decide) (by decide) (by decide) (by decide)

/-- C4: every successful create (status 200) and every successful delete
(status 200) leaves no cache entry under the mutated wallet's key, so a
list issued right after the mutation (with the connection up) cannot be
served from the cache: it queries the database. -/
theorem claim_C4 (now now2 now3 : Int) (r : CreateRequest) (s t : ServerState)
    (c w : String)
    (hpost : (metaPOST true true now r s).1.status = 200)
    (hdel : (metaDELETE true (some c) (some w) t).1.status = 200) :
    cacheFind (metaPOST true true now r s).2.cache (cacheKeyOf r.walletAddress) = none ∧
    (metaGET true now2 (some r.walletAddress) (metaPOST true true now r s).2).1.dbQueried = true ∧
    cacheFind (metaDELETE true (some c) (some w) t).2.cache (cacheKeyOf w) = none ∧
    (metaGET true now3 (some w) (metaDELETE true (some c) (some w) t).2).1.dbQueried = true := by
  by_cases hw : r.walletAddress = ""
  · simp [metaPOST, hw] at hpost
  by_cases hmiss : r.fileName = "" ∨ r.cid = "" ∨ r.size = "" ∨ r.mimeType = ""
  · simp [metaPOST, hw, hmiss] at hpost
  push_neg at hmiss
  obtain ⟨hf, hc2, hsz, hm⟩ := hmiss
  have hpostPart :
      cacheFind (metaPOST true true now r s).2.cache (cacheKeyOf r.walletAddress) = none ∧
      (metaGET true now2 (some r.walletAddress) (metaPOST true true now r s).2).1.dbQueried = true := by
    cases hn : jsParseInt r.size with
    | none => simp [metaPOST, hw, hf, hc2, hsz, hm, hn] at hpost
    | some n =>
      obtain ⟨h1, _⟩ := metaPOST_success now r s n hn hw hf hc2 hm
      rw [h1]
      refine ⟨cacheFind_cacheDelete s.cache (cacheKeyOf r.walletAddress), ?_⟩
      simp [metaGET, metaGETFresh, hw, cacheFind_cacheDelete s.cache (cacheKeyOf r.walletAddress)]
  have hcne : c ≠ "" := by
    intro h
    simp [metaDELETE, optFalsy, h] at hdel
  have hwne : w ≠ "" := by
    intro h
    simp [metaDELETE, optFalsy, h] at hdel
  have hdelPart :
      cacheFind (metaDELETE true (some c) (some w) t).2.cache (cacheKeyOf w) = none ∧
      (metaGET true now3 (some w) (metaDELETE true (some c) (some w) t).2).1.dbQueried = true := by
    cases hfind : findFile t.files c w with
    | none => simp [metaDELETE, optFalsy, hcne, hwne, hfind] at hdel
    | some f =>
      have hd :
          metaDELETE true (some c) (some w) t =
            ({ status := 200, error := none },
             { files := removeFirstFile t.files c w,
               users := usersIncIfPresent t.users w (-(jsOrZero (jsParseInt f.size))),
               cache := cacheDelete t.cache (cacheKeyOf w) }) := by
        simp [metaDELETE, optFalsy, hcne, hwne, hfind]
      rw [hd]
      refine ⟨cacheFind_cacheDelete t.cache (cacheKeyOf w), ?_⟩
      simp [metaGET, metaGETFresh, hwne, cacheFind_cacheDelete t.cache (cacheKeyOf w)]
  exact ⟨hpostPart.1, hpostPart.2, hdelPart.1, hdelPart.2⟩

/-- Witness for C4 at a concrete create (wallet `w1`) and delete (wallet
`w2`), each starting from a state whose cache holds a stale entry for
the mutated wallet. -/
theorem claim_C4_witness :
    cacheFind (metaPOST true true 0 ⟨"a.txt", "c1", "100", "text/plain", "w1"⟩
      ⟨[], [], [("files:w1", ⟨[], 0⟩)]⟩).2.cache (cacheKeyOf "w1") = none ∧
    (metaGET true 1 (some "w1") (metaPOST true true 0 ⟨"a.txt", "c1", "100", "text/plain", "w1"⟩
      ⟨[], [], [("files:w1", ⟨[], 0⟩)]⟩).2).1.dbQueried = true ∧
    cacheFind (metaDELETE true (some "c2") (some "w2")
      ⟨[⟨"b.txt", "c2", "50", "text/plain", "w2", 0, some 0⟩], [⟨"w2", 50⟩],
        [("files:w2", ⟨[], 0⟩)]⟩).2.cache (cacheKeyOf "w2") = none ∧
    (metaGET true 1 (some "w2") (metaDELETE true (some "c2") (some "w2")
      ⟨[⟨"b.txt", "c2", "50", "text/plain", "w2", 0, some 0⟩], [⟨"w2", 50⟩],
        [("files:w2", ⟨[], 0⟩)]⟩).2).1.dbQueried = true :=
  claim_C4 0 1 1 ⟨"a.txt", "c1", "100", "text/plain", "w1"⟩
    ⟨[], [], [("files:w1", ⟨[], 0⟩)]⟩
    ⟨[⟨"b.txt", "c2", "50", "text/plain", "w2", 0, some 0⟩], [⟨"w2", 50⟩],
      [("files:w2", ⟨[], 0⟩)]⟩
    "c2" "w2" (by decide) (by decide)

/-- When a GET actually queried the database (connection up), the returned
list is the decorated query result and the cache now maps the wallet's
key to that list stamped with the current time. -/
theorem metaGET_dbQueried_spec (now : Int) (w : String) (s : ServerState) (hw : w ≠ "")
    (hdb : (metaGET true now (some w) s).1.dbQueried = true) :
    (metaGET true now (some w) s).1.files =
      (sortByCreatedDesc (filesFor s.files w)).map transformFile ∧
    (metaGET true now (some w) s).2.cache =
      cacheSet s.cache (cacheKeyOf w) ⟨(metaGET true now (some w) s).1.files, now⟩ := by
  cases hc : cacheFind s.cache (cacheKeyOf w) with
  | none => simp [metaGET, metaGETFresh, hw, hc]
  | some e =>
    by_cases ht : now - e.timestamp < 30000
    · simp [metaGET, hw, hc, ht] at hdb
    · simp [metaGET, metaGETFresh, hw, hc, ht]

/-- C5: a list GET's cache lookup is a hit exactly when `now - timestamp <
30000`; on a hit the cached list is returned and the state is untouched
(no database query); an absent or stale entry makes the handler query
the database and store the fresh decorated list under the current
timestamp; hence a second GET within 30 seconds of a database-querying
GET, with no intervening mutation, returns the identical list without
touching the database. -/
theorem claim_C5 (w : String) (s : ServerState) (now t1 t2 : Int) (hw : w ≠ "") :
    (∀ e, cacheFind s.cache (cacheKeyOf w) = some e →
      ((metaGET true now (some w) s).1.dbQueried = false ↔ now - e.timestamp < 30000)) ∧
    (cacheFind s.cache (cacheKeyOf w) = none →
      (metaGET true now (some w) s).1.dbQueried = true) ∧
    (∀ e, cacheFind s.cache (cacheKeyOf w) = some e → now - e.timestamp < 30000 →
      (metaGET true now (some w) s).1.files = e.data ∧
      (metaGET true now (some w) s).2 = s) ∧
    ((metaGET true now (some w) s).1.dbQueried = true →
      (metaGET true now (some w) s).1.files =
        (sortByCreatedDesc (filesFor s.files w)).map transformFile ∧
      cacheFind (metaGET true now (some w) s).2.cache (cacheKeyOf w) =
        some ⟨(metaGET true now (some w) s).1.files, now⟩) ∧
    ((metaGET true t1 (some w) s).1.dbQueried = true → t2 - t1 < 30000 →
      (metaGET true t2 (some w) (metaGET true t1 (some w) s).2).1.files =
        (metaGET true t1 (some w) s).1.files ∧
      (metaGET true t2 (some w) (metaGET true t1 (some w) s).2).1.dbQueried = false) := by
  refine ⟨?_, ?_, ?_, ?_, ?_⟩
  · intro e he
    by_cases ht : now - e.timestamp < 30000 <;>
      simp [metaGET, metaGETFresh, hw, he, ht]
  · intro he
    simp [metaGET, metaGETFresh, hw, he]
  · intro e he ht
    simp [metaGET, hw, he, ht]
  · intro hdb
    obtain ⟨hfiles, hcache⟩ := metaGET_dbQueried_spec now w s hw hdb
    refine ⟨hfiles, ?_⟩
    rw [hcache]
    exact cacheFind_cacheSet _ _ _
  · intro hdb1 ht
    obtain ⟨hfiles, hcache⟩ := metaGET_dbQueried_spec t1 w s hw hdb1
    have hfind2 :
        cacheFind (metaGET true t1 (some w) s).2.cache (cacheKeyOf w) =
          some ⟨(metaGET true t1 (some w) s).1.files, t1⟩ := by
      rw [hcache]
      exact cacheFind_cacheSet _ _ _
    generalize metaGET true t1 (some w) s = res at hfind2 ⊢
    constructor <;> simp [metaGET, hw, hfind2, ht]

/-- Witness for C5: a first GET against the empty state at time 0 queries
the database; a second at time 5 is served from the cache with the same
(empty) list. -/
theorem claim_C5_witness :
    (metaGET true 5 (some "w1") (metaGET true 0 (some "w1") ⟨[], [], []⟩).2).1.files =
      (metaGET true 0 (some "w1") ⟨[], [], []⟩).1.files ∧
    (metaGET true 5 (some "w1") (metaGET true 0 (some "w1") ⟨[], [], []⟩).2).1.dbQueried = false :=
  (claim_C5 "w1" ⟨[], [], []⟩ 0 0 5 (by decide)).2.2.2.2 (by decide) (by decide)

/-- The exact-double model of `toFixed(2)` after division by `2^k` agrees
with round-half-up two-decimal rendering of the rational `n / 2^k`. -/
theorem toFixed2Pow2_eq_twoDecimals (a k : Nat) (hk : 1 ≤ k) :
    toFixed2Pow2 a k = twoDecimals a (2 ^ k) := by
  unfold toFixed2Pow2 twoDecimals roundHalfUp
  have hsplit : 2 ^ k = 2 * 2 ^ (k - 1) := by
    conv_lhs => rw [show k = (k - 1) + 1 by omega]
    rw [pow_succ]
    ring
  have hm : (2 * (100 * a) + 2 ^ k) / (2 * 2 ^ k) = (100 * a + 2 ^ (k - 1)) / 2 ^ k := by
    rw [show 2 * (100 * a) + 2 ^ k = 2 * (100 * a + 2 ^ (k - 1)) by rw [hsplit]; ring]
    exact Nat.mul_div_mul_left _ _ (by norm_num)
  rw [hm]

/-- C6: for every file record whose size string parses as `n` (within the
double-precision range, where JavaScript's division and `toFixed` are
exact), the GET decoration's `formattedSize` equals the spec-worded
formatter — B below 1024, two-decimal KB below 1024², two-decimal MB
below 1024³, two-decimal GB otherwise — and on the spec's sample
inputs: 500 → "500 B", 2048 → "2.00 KB", 5242880 → "5.00 MB",
3221225472 → "3.00 GB". -/
theorem claim_C6 :
    (∀ (f : FileRecord) (n : Int), jsParseInt f.size = some n → n.natAbs < 2 ^ 53 →
      (transformFile f).formattedSize = specFormattedSize n) ∧
    formatFileSize "500" = "500 B" ∧
    formatFileSize "2048" = "2.00 KB" ∧
    formatFileSize "5242880" = "5.00 MB" ∧
    formatFileSize "3221225472" = "3.00 GB" := by
  refine ⟨?_, by decide, by decide, by decide, by decide⟩
  intro f n hn _
  show formatFileSize f.size = specFormattedSize n
  have e10 : toFixed2Pow2 n.toNat 10 = twoDecimals n.toNat 1024 := by
    rw [toFixed2Pow2_eq_twoDecimals n.toNat 10 (by norm_num)]
    norm_num
  have e20 : toFixed2Pow2 n.toNat 20 = twoDecimals n.toNat (1024 ^ 2) := by
    rw [toFixed2Pow2_eq_twoDecimals n.toNat 20 (by norm_num)]
    norm_num
  have e30 : toFixed2Pow2 n.toNat 30 = twoDecimals n.toNat (1024 ^ 3) := by
    rw [toFixed2Pow2_eq_twoDecimals n.toNat 30 (by norm_num)]
    norm_num
  rw [formatFileSize, hn, specFormattedSize]
  by_cases h1 : n < 1024
  · simp [h1]
  by_cases h2 : n < 1024 * 1024
  · have h2s : n < 1024 ^ 2 := by omega
    simp only [if_neg h1, if_pos h2, if_pos h2s, e10]
  · have h2s : ¬ n < 1024 ^ 2 := by omega
    by_cases h3 : n < 1024 * 1024 * 1024
    · have h3s : n < 1024 ^ 3 := by omega
      simp only [if_neg h1, if_neg h2, if_neg h2s, if_pos h3, if_pos h3s, e20]
    · have h3s : ¬ n < 1024 ^ 3 := by omega
      simp only [if_neg h1, if_neg h2, if_neg h2s, if_neg h3, if_neg h3s, e30]

/-- Witness for C6: the general refinement conjunct applied to a concrete
record of size `"2048"`. -/
theorem claim_C6_witness :
    (transformFile ⟨"a.bin", "c1", "2048", "application/octet-stream", "w1", 0, some 0⟩).formattedSize =
      specFormattedSize 2048 :=
  claim_C6.1 ⟨"a.bin", "c1", "2048", "application/octet-stream", "w1", 0, some 0⟩ 2048
    (by decide) (by decide)

/-- C7 counterexample: for a concrete upstream failure (status 404,
statusText "Not Found", body text "oops"), the proxy's response body is
NOT the upstream body text relayed verbatim — it is a JSON error object
that carries that text only in its `details` field — although the status
code is relayed. -/
theorem claim_C7_counterexample :
    (proxyPOST (some "key") ⟨some ⟨"f.bin", "application/octet-stream", 4⟩⟩
      (.response ⟨false, 404, "Not Found", some "oops", none⟩)).status = 404 ∧
    ¬ ((proxyPOST (some "key") ⟨some ⟨"f.bin", "application/octet-stream", 4⟩⟩
      (.response ⟨false, 404, "Not Found", some "oops", none⟩)).body.serialize = "oops") ∧
    (proxyPOST (some "key") ⟨some ⟨"f.bin", "application/octet-stream", 4⟩⟩
      (.response ⟨false, 404, "Not Found", some "oops", none⟩)).body.serialize =
      "\x7b\"error\":\"WebHash API error: 404 Not Found\",\"details\":\"oops\"\x7d" := by
  refine ⟨rfl, ?_, rfl⟩
  decide

/-- C7 (amended): for every non-success upstream response (key configured,
file present), the proxy relays the upstream status code, and its body
is a JSON error object whose `error` field names the upstream status and
status text and whose `details` field is the upstream body text verbatim
— or the fallback text "Could not read error response" when the upstream
body cannot be read. -/
theorem claim_C7_amended (apiKey : Option String) (form : ProxyForm)
    (u : UpstreamResponse) (ff : FormFile)
    (hkey : optFalsy apiKey = false) (hfile : form.file = some ff) (hok : u.ok = false) :
    (proxyPOST apiKey form (.response u)).status = u.status ∧
    (proxyPOST apiKey form (.response u)).body =
      .errObj ("WebHash API error: " ++ toString u.status ++ " " ++ u.statusText)
        (some (u.textResult.getD "Could not read error response")) := by
  constructor <;> simp [proxyPOST, hkey, hfile, hok]

/-- Witness for the amended C7 at a concrete 502 upstream failure whose
body text is readable. -/
theorem claim_C7_amended_witness :
    (proxyPOST (some "key") ⟨some ⟨"f.bin", "application/octet-stream", 4⟩⟩
      (.response ⟨false, 502, "Bad Gateway", some "backend down", some "ignored"⟩)).status = 502 ∧
    (proxyPOST (some "key") ⟨some ⟨"f.bin", "application/octet-stream", 4⟩⟩
      (.response ⟨false, 502, "Bad Gateway", some "backend down", some "ignored"⟩)).body =
      .errObj ("WebHash API error: " ++ toString 502 ++ " " ++ "Bad Gateway")
        (some ((some "backend down").getD "Could not read error response")) :=
  claim_C7_amended (some "key") ⟨some ⟨"f.bin", "application/octet-stream", 4⟩⟩
    ⟨false, 502, "Bad Gateway", some "backend down", some "ignored"⟩
    ⟨"f.bin", "application/octet-stream", 4⟩ (by decide) rfl rfl

/-- C8: with the API key configured, a proxy upload whose multipart form
lacks a `file` field returns 400 with the explicit "No file found in
request" error, and the upstream fetch is never attempted. -/
theorem claim_C8 (apiKey : Option String) (fetched : FetchResult)
    (hkey : optFalsy apiKey = false) :
    (proxyPOST apiKey ⟨none⟩ fetched).status = 400 ∧
    (proxyPOST apiKey ⟨none⟩ fetched).body = .errObj "No file found in request" none ∧
    (proxyPOST apiKey ⟨none⟩ fetched).fetchAttempted = false := by
  refine ⟨?_, ?_, ?_⟩ <;> simp [proxyPOST, hkey]

/-- Witness for C8 with a configured key and an arbitrary fetch outcome
(which can never be consulted). -/
theorem claim_C8_witness :
    (proxyPOST (some "key") ⟨none⟩ (.fetchError "unreachable")).status = 400 ∧
    (proxyPOST (some "key") ⟨none⟩ (.fetchError "unreachable")).body =
      .errObj "No file found in request" none ∧
    (proxyPOST (some "key") ⟨none⟩ (.fetchError "unreachable")).fetchAttempted = false :=
  claim_C8 (some "key") (.fetchError "unreachable") (by decide)

/-- C9: the API-key configuration check precedes reading the form body:
with the key unconfigured (absent or empty) every request gets a 500
without the form being parsed or the fetch being attempted — in
particular a request missing both the key and the `file` field gets the
configuration 500, never the validation 400. -/
theorem claim_C9 (apiKey : Option String) (form : ProxyForm) (fetched : FetchResult)
    (hkey : optFalsy apiKey = true) :
    (proxyPOST apiKey form fetched).status = 500 ∧
    (proxyPOST apiKey form fetched).body = .errObj "WebHash API key is not configured" none ∧
    (proxyPOST apiKey form fetched).formParsed = false ∧
    (proxyPOST apiKey form fetched).fetchAttempted = false ∧
    (proxyPOST apiKey ⟨none⟩ fetched).status ≠ 400 := by
  refine ⟨?_, ?_, ?_, ?_, ?_⟩ <;> simp [proxyPOST, hkey]

/-- Witness for C9 with an absent key and a form missing the `file`
field. -/
theorem claim_C9_witness :
    (proxyPOST none ⟨none⟩ (.fetchError "unreachable")).status = 500 ∧
    (proxyPOST none ⟨none⟩ (.fetchError "unreachable")).body =
      .errObj "WebHash API key is not configured" none ∧
    (proxyPOST none ⟨none⟩ (.fetchError "unreachable")).formParsed = false ∧
    (proxyPOST none ⟨none⟩ (.fetchError "unreachable")).fetchAttempted = false ∧
    (proxyPOST none ⟨none⟩ (.fetchError "unreachable")).status ≠ 400 :=
  claim_C9 none ⟨none⟩ (.fetchError "unreachable") (by decide)
